import Mathlib

/-!
Verification of the ECOS solver adapter
(`cvxpy/solver_interface/conic_solvers/ecos_conif.py`).

The adapter has two halves: `get_problem_data`/`solve` build the argument
bundle for the ECOS call, and `format_results` translates the raw solver
response into a normalized result record.  We embed the data model and the
operations shallowly: Python dicts become records or association lists,
numeric scalars become `ℚ`, vectors become `List ℚ`, and fallible Python
evaluation becomes `Except PyError`.
-/

namespace EcosConif

/-- The canonical status enumeration.  Modelled from the spec: the closed
solver-independent status set of §4.2; in the source these are the string
constants `cvxpy.settings.OPTIMAL`, `INFEASIBLE`, `UNBOUNDED`,
`OPTIMAL_INACCURATE`, `INFEASIBLE_INACCURATE`, `UNBOUNDED_INACCURATE`,
`SOLVER_ERROR`, which live outside the provided source file. -/
inductive Status where
  | optimal
  | infeasible
  | unbounded
  | optimal_inaccurate
  | infeasible_inaccurate
  | unbounded_inaccurate
  | solver_error
  deriving DecidableEq, Repr

/-- Modelled from the spec: the "solution present" subset of the status
enumeration (§4.2), `cvxpy.settings.SOLUTION_PRESENT` in the source tree
(outside the provided file). -/
def SOLUTION_PRESENT : List Status :=
  [Status.optimal, Status.optimal_inaccurate]

/-- The table `ECOS.STATUS_MAP`: the fixed table mapping ECOS exit codes to canonical
statuses (source lines 48-58). -/
def STATUS_MAP : List (Int × Status) :=
  [(0, Status.optimal),
   (1, Status.infeasible),
   (2, Status.unbounded),
   (10, Status.optimal_inaccurate),
   (11, Status.infeasible_inaccurate),
   (12, Status.unbounded_inaccurate),
   (-1, Status.solver_error),
   (-2, Status.solver_error),
   (-3, Status.solver_error),
   (-4, Status.solver_error),
   (-7, Status.solver_error)]

/-- The keys of `STATUS_MAP`. -/
def STATUS_MAP_keys : List Int := STATUS_MAP.map Prod.fst

/-- Python dict lookup `STATUS_MAP[c]` as an `Option`. -/
def statusMapLookup (c : Int) : Option Status :=
  (STATUS_MAP.find? (fun p => p.1 = c)).map Prod.snd

/-- Errors a call into the adapter can raise.  `unknownExitCode` is the
`KeyError` raised by the `STATUS_MAP[...]` lookup on an unmapped exit code
(the spec's `UnknownExitCode`); `keyError` is any other dict-lookup failure;
`nameError` and `typeError` are the corresponding Python exceptions.
`unsupportedConstraint` is the spec's `UnsupportedConstraint` error (§7);
no code path in the source raises it. -/
inductive PyError where
  | unknownExitCode
  | keyError
  | nameError
  | typeError
  | unsupportedConstraint
  deriving DecidableEq, Repr

/-- The `timing` sub-dict of the ECOS `info` block. -/
structure Timing where
  tsolve : ℚ
  tsetup : ℚ
  deriving DecidableEq, Repr

/-- The `info` block of a raw ECOS result. -/
structure Info where
  exitFlag : Int
  pcost : ℚ
  iter : ℕ
  timing : Timing
  deriving DecidableEq, Repr

/-- A raw ECOS solver result (`results_dict`): info block plus primal
vector `x`, equality dual `y`, inequality dual `z`. -/
structure ResultsDict where
  info : Info
  x : List ℚ
  y : List ℚ
  z : List ℚ
  deriving DecidableEq, Repr

/-- A value stored in the cone-dimension descriptor dict: a count or a
list of cone sizes. -/
inductive DimVal where
  | num (n : Int)
  | nums (l : List Int)
  deriving DecidableEq, Repr

/-- A Python dict with string keys, as an association list without
duplicate semantics: lookups and assignments act on the first binding. -/
abbrev Dict := List (String × DimVal)

/-- Python dict lookup `d[k]` as an `Option`. -/
def dictGet? (d : Dict) (k : String) : Option DimVal :=
  (d.find? (fun p => p.1 = k)).map Prod.snd

/-- Python dict assignment `d[k] = v`: replace the first binding of `k`,
or append a fresh binding when `k` is absent. -/
def dictSet (d : Dict) (k : String) (v : DimVal) : Dict :=
  match d with
  | [] => [(k, v)]
  | p :: ps => if p.1 = k then (k, v) :: ps else p :: dictSet ps k v

/-- Modelled from the spec: the exponential-cone-count key of the
cone-dimension descriptor (`s.EXP_DIM` in `cvxpy.settings`, outside the
provided file).  Per §4.1 the ECOS binding wants the same count again under
the alias key `"e"`, a second name distinct from this one. -/
def EXP_DIM : String := "ep"

/-- The slice of the argument bundle (`data`) that `solve` and
`format_results` read after the build step: `data[s.OFFSET]` and the
cone-dimension descriptor `data[s.DIMS]`. -/
structure ProbData where
  offset : ℚ
  dims : Dict
  deriving DecidableEq, Repr

/-- The normalized result dict built by `format_results`.  Keys that are
only conditionally inserted (`VALUE`, `PRIMAL`, `EQ_DUAL`, `INEQ_DUAL`)
are `Option`s; `none` means the key is absent from the dict. -/
structure NewResults where
  status : Status
  solve_time : ℚ
  setup_time : ℚ
  num_iters : ℕ
  value : Option ℚ
  primal : Option (List ℚ)
  eq_dual : Option (List ℚ)
  ineq_dual : Option (List ℚ)
  deriving DecidableEq, Repr

/-- The method `ECOS.format_results` (source lines 150-183): look up the exit code in
`STATUS_MAP` (a missing key raises), always copy the timing data and
iteration count, and populate value/primal/duals only when the status is in
`SOLUTION_PRESENT`. -/
def format_results (results_dict : ResultsDict) (data : ProbData) :
    Except PyError NewResults :=
  match statusMapLookup results_dict.info.exitFlag with
  | none => Except.error PyError.unknownExitCode
  | some status =>
      Except.ok
        { status := status
          solve_time := results_dict.info.timing.tsolve
          setup_time := results_dict.info.timing.tsetup
          num_iters := results_dict.info.iter
          value :=
            if status ∈ SOLUTION_PRESENT then
              some (results_dict.info.pcost + data.offset)
            else none
          primal :=
            if status ∈ SOLUTION_PRESENT then some results_dict.x else none
          eq_dual :=
            if status ∈ SOLUTION_PRESENT then some results_dict.y else none
          ineq_dual :=
            if status ∈ SOLUTION_PRESENT then some results_dict.z else none }

/-- Replace the exit flag of a raw result, leaving everything else fixed. -/
def withFlag (rd : ResultsDict) (c : Int) : ResultsDict :=
  { rd with info := { rd.info with exitFlag := c } }

/-- The status field of a translated result, when translation succeeds. -/
def statusOf (rd : ResultsDict) (data : ProbData) : Option Status :=
  (format_results rd data).toOption.map NewResults.status

/-- A concrete raw result with exit code `1` (primal infeasible) whose
vectors are nonetheless nonempty. -/
def rdInfeasible : ResultsDict := ⟨⟨1, 5, 7, ⟨1/2, 1/4⟩⟩, [1, 2], [3], [4]⟩

/-- A concrete argument-bundle slice with offset `1/2`. -/
def dataHalf : ProbData := ⟨1/2, []⟩

/-- The translation of `rdInfeasible`: diagnostics only, no solution data. -/
def rInfeasible : NewResults := ⟨Status.infeasible, 1/2, 1/4, 7, none, none, none, none⟩

/-- A concrete raw result with exit code `0` and primal cost `5`. -/
def rdOptimal : ResultsDict := ⟨⟨0, 5, 9, ⟨2, 3⟩⟩, [1], [], [2]⟩

/-- A concrete argument-bundle slice with offset `5/2` (the spec's offset
example). -/
def dataOffset : ProbData := ⟨5/2, []⟩

/-- The translation of `rdOptimal` against `dataOffset`. -/
def rOptimal : NewResults :=
  ⟨Status.optimal, 2, 3, 9, some (5 + 5/2), some [1], some [], some [2]⟩

/-- A concrete raw result with exit code `3`, absent from `STATUS_MAP`. -/
def rdUnknown : ResultsDict := ⟨⟨3, 0, 0, ⟨0, 0⟩⟩, [], [], []⟩

/-- A concrete raw result with exit code `-2` (`ECOS_NUMERICS`). -/
def rdNumerics : ResultsDict := ⟨⟨-2, 1, 13, ⟨7/8, 9/16⟩⟩, [], [], []⟩

/-- The kind of a canonicalized constraint.  `eq`/`leq`/`soc`/`expCone`
are the kinds the commented-out `accepts` predicate would allow
(source lines 71-82); `other` is any unsupported kind. -/
inductive ConstraintKind where
  | eq
  | leq
  | soc
  | expCone
  | other
  deriving DecidableEq, Repr

/-- The two explicit arguments of `get_problem_data`: the canonicalized
objective (an opaque coefficient payload here) and the canonicalized
constraint list. -/
structure SolveArgs where
  objective : List ℚ
  constraints : List ConstraintKind
  deriving DecidableEq, Repr

/-- The local names in scope inside the body of
`def get_problem_data(self, objective, constraints)`: exactly its three
parameters (source line 84). -/
def get_problem_data_scope : List String := ["self", "objective", "constraints"]

/-- The module-level names of `ecos_conif.py`: the three imports and the
class itself (source lines 20-25). -/
def ecos_module_scope : List String := ["intf", "s", "Solver", "ECOS"]

/-- Python name resolution inside `get_problem_data`: a bare name resolves
against the local scope, then the module globals; an unbound name raises
`NameError`. -/
def evalName (n : String) : Except PyError Unit :=
  if n ∈ get_problem_data_scope ∨ n ∈ ecos_module_scope then Except.ok ()
  else Except.error PyError.nameError

/-- The body of `ECOS.get_problem_data` (source lines 84-115).  Its first
statement is `sym_data = self.get_sym_data(objective, constraints,
cached_data)`; Python resolves `self`, then the call's argument names left
to right, before the call happens.  Everything after that first argument
list — the `get_sym_data`/`get_matrix_data` calls (base-class methods not
in this file) and the assembly of the `data` dict — is the continuation
`body_rest`. -/
def get_problem_data_body (args : SolveArgs)
    (body_rest : SolveArgs → Except PyError ProbData) :
    Except PyError ProbData :=
  (evalName "self").bind fun _ =>
    (evalName "objective").bind fun _ =>
      (evalName "constraints").bind fun _ =>
        (evalName "cached_data").bind fun _ =>
          body_rest args

/-- The number of parameters of `def get_problem_data(self, objective,
constraints)`, `self` included. -/
def get_problem_data_paramCount : ℕ := 3

/-- Python positional-call semantics: the argument count must match the
parameter count, otherwise the call raises `TypeError` before the body
runs. -/
def callPy (paramCount numArgs : ℕ) (body : Except PyError α) :
    Except PyError α :=
  if numArgs = paramCount then body else Except.error PyError.typeError

/-- The statement `data[s.DIMS]['e'] = data[s.DIMS][s.EXP_DIM]` (source line 143), on the
value-level view of the bundle's own descriptor copy: read the
exponential-cone count (a missing key would raise `KeyError`) and store it
again under the alias key `"e"`. -/
def solve_dims_augment (data : ProbData) : Except PyError ProbData :=
  match dictGet? data.dims EXP_DIM with
  | none => Except.error PyError.keyError
  | some v => Except.ok { data with dims := dictSet data.dims "e" v }

/-- The method `ECOS.solve` (source lines 117-148): call
`self.get_problem_data(objective, constraints, cached_data)` — four
positional arguments including `self`, against a three-parameter signature
— then alias the exponential-cone count, call `ecos.solve`, and format the
result.  `warm_start` is a parameter documented "Not used"; the external
`ecos.solve` is the opaque `ecosSolve` argument. -/
def solve (objective : List ℚ) (constraints : List ConstraintKind)
    (cached_data : List (String × ℚ)) (warm_start verbose : Bool)
    (solver_opts : List (String × ℚ))
    (body_rest : SolveArgs → Except PyError ProbData)
    (ecosSolve : ProbData → Bool → List (String × ℚ) → ResultsDict) :
    Except PyError NewResults :=
  (callPy get_problem_data_paramCount 4
      (get_problem_data_body ⟨objective, constraints⟩ body_rest)).bind fun data =>
    (solve_dims_augment data).bind fun data2 =>
      format_results (ecosSolve data2 verbose solver_opts) data2

/-- A heap of dict objects; an address is an index into the heap.  Models
Python object identity for the mutable cone-dimension descriptor: the
upstream `sym_data.dims` and its `.copy()` are distinct addresses. -/
structure Store where
  dicts : List Dict
  deriving DecidableEq, Repr

/-- Dereference an address. -/
def Store.read (st : Store) (a : ℕ) : Dict := (st.dicts[a]?).getD []

/-- Overwrite the dict at an address. -/
def Store.write (st : Store) (a : ℕ) (d : Dict) : Store := ⟨st.dicts.set a d⟩

/-- The call `dims.copy()`: allocate a fresh dict object holding the same entries,
returning the new store and the fresh address. -/
def Store.allocCopy (st : Store) (a : ℕ) : Store × ℕ :=
  (⟨st.dicts ++ [st.read a]⟩, st.dicts.length)

/-- The assignment `d[k] = v` on the dict object at address `a`. -/
def Store.setItem (st : Store) (a : ℕ) (k : String) (v : DimVal) : Store :=
  st.write a (dictSet (st.read a) k v)

/-- The adapter's descriptor handling, on the heap:
`data[s.DIMS] = sym_data.dims.copy()` (source line 109) followed by
`data[s.DIMS]['e'] = data[s.DIMS][s.EXP_DIM]` (source line 143).  The
upstream descriptor lives at `dimsAddr`; the result is the new heap and
the address of the bundle's descriptor. -/
def dims_copy_then_alias (st : Store) (dimsAddr : ℕ) :
    Except PyError (Store × ℕ) :=
  let copied := st.allocCopy dimsAddr
  match dictGet? (copied.1.read copied.2) EXP_DIM with
  | none => Except.error PyError.keyError
  | some v => Except.ok (copied.1.setItem copied.2 "e" v, copied.2)

/-- A concrete heap holding one cone-dimension descriptor
`{'l': 2, 'q': [3], 'ep': 1}` at address `0`. -/
def storeExp : Store :=
  ⟨[[("l", DimVal.num 2), ("q", DimVal.nums [3]), (EXP_DIM, DimVal.num 1)]]⟩

/-- Discreteness flag of a declared decision variable. -/
inductive VarFlag where
  | continuous
  | boolean
  | integer
  deriving DecidableEq, Repr

/-- One entry of the upstream variable map (`var_offsets`/`var_sizes`, with
the per-variable discreteness flag reachable through them): flat offset,
size and flag. -/
structure VarEntry where
  offset : ℕ
  size : ℕ
  flag : VarFlag
  deriving DecidableEq, Repr

/-- Is the variable declared boolean? -/
def VarEntry.isBool (v : VarEntry) : Bool := v.flag = VarFlag.boolean

/-- Is the variable declared integer? -/
def VarEntry.isInt (v : VarEntry) : Bool := v.flag = VarFlag.integer

/-- Is the variable discrete (declared boolean or integer)? -/
def VarEntry.isDiscrete (v : VarEntry) : Bool := v.isBool || v.isInt

/-- The flat indices `[offset, offset + size)` of one variable. -/
def expandVar (v : VarEntry) : List ℕ :=
  (List.range v.size).map (fun i => v.offset + i)

/-- Modelled from the spec: `Solver._noncvx_id_to_idx` (a base-class
method, not in the provided file).  Per §4.1 it scans the variable map and
expands each variable selected by the flag predicate `p` into its full
flat-index range. -/
def collectIdx : List VarEntry → (VarEntry → Bool) → List ℕ
  | [], _ => []
  | v :: vs, p => (if p v then expandVar v else []) ++ collectIdx vs p

/-- The boolean-variable flat-index set (`data[s.BOOL_IDX]`). -/
def bool_idx (vs : List VarEntry) : List ℕ := collectIdx vs VarEntry.isBool

/-- The integer-variable flat-index set (`data[s.INT_IDX]`). -/
def int_idx (vs : List VarEntry) : List ℕ := collectIdx vs VarEntry.isInt

/-- Total size of the variables selected by `p`. -/
def sumSizes : List VarEntry → (VarEntry → Bool) → ℕ
  | [], _ => 0
  | v :: vs, p => (if p v then v.size else 0) + sumSizes vs p

/-- The upstream layout invariant (§3): the variable slices tile
`[start, n)` consecutively, without gaps or overlaps. -/
def layoutFrom : ℕ → List VarEntry → ℕ → Bool
  | start, [], n => start == n
  | start, v :: vs, n => (v.offset == start) && layoutFrom (start + v.size) vs n

/-- A concrete variable map: a boolean 2-vector, a continuous scalar and an
integer 2-vector, tiling `[0, 5)`. -/
def varsExample : List VarEntry :=
  [⟨0, 2, VarFlag.boolean⟩, ⟨2, 1, VarFlag.continuous⟩, ⟨3, 2, VarFlag.integer⟩]

end EcosConif

namespace EcosConif

/-- C1: for every exit code in the fixed table `{0, 1, 2, 10, 11, 12, -1,
-2, -3, -4, -7}`, `format_results` returns a normal result (no exception)
carrying the documented canonical status: `0 ↦ OPTIMAL`, `1 ↦ INFEASIBLE`,
`2 ↦ UNBOUNDED`, `10 ↦ OPTIMAL_INACCURATE`, `11 ↦ INFEASIBLE_INACCURATE`,
`12 ↦ UNBOUNDED_INACCURATE`, and `-1, -2, -3, -4, -7 ↦ SOLVER_ERROR`. -/
theorem format_results_maps_table_codes (rd : ResultsDict) (data : ProbData) :
    (∃ r, format_results (withFlag rd 0) data = Except.ok r ∧ r.status = Status.optimal) ∧
    (∃ r, format_results (withFlag rd 1) data = Except.ok r ∧ r.status = Status.infeasible) ∧
    (∃ r, format_results (withFlag rd 2) data = Except.ok r ∧ r.status = Status.unbounded) ∧
    (∃ r, format_results (withFlag rd 10) data = Except.ok r ∧ r.status = Status.optimal_inaccurate) ∧
    (∃ r, format_results (withFlag rd 11) data = Except.ok r ∧ r.status = Status.infeasible_inaccurate) ∧
    (∃ r, format_results (withFlag rd 12) data = Except.ok r ∧ r.status = Status.unbounded_inaccurate) ∧
    (∃ r, format_results (withFlag rd (-1)) data = Except.ok r ∧ r.status = Status.solver_error) ∧
    (∃ r, format_results (withFlag rd (-2)) data = Except.ok r ∧ r.status = Status.solver_error) ∧
    (∃ r, format_results (withFlag rd (-3)) data = Except.ok r ∧ r.status = Status.solver_error) ∧
    (∃ r, format_results (withFlag rd (-4)) data = Except.ok r ∧ r.status = Status.solver_error) ∧
    (∃ r, format_results (withFlag rd (-7)) data = Except.ok r ∧ r.status = Status.solver_error) :=
  ⟨⟨_, rfl, rfl⟩, ⟨_, rfl, rfl⟩, ⟨_, rfl, rfl⟩, ⟨_, rfl, rfl⟩, ⟨_, rfl, rfl⟩,
   ⟨_, rfl, rfl⟩, ⟨_, rfl, rfl⟩, ⟨_, rfl, rfl⟩, ⟨_, rfl, rfl⟩, ⟨_, rfl, rfl⟩,
   ⟨_, rfl, rfl⟩⟩

/-- C2: in every translated result, the optimal value and the primal,
equality-dual, and inequality-dual entries are present iff the status is in
`SOLUTION_PRESENT`; outside that subset all four are absent even when the
raw result carries `x`, `y`, `z` vectors. -/
theorem format_results_solution_present_iff (rd : ResultsDict) (data : ProbData)
    (r : NewResults) (h : format_results rd data = Except.ok r) :
    ((r.value.isSome ∧ r.primal.isSome ∧ r.eq_dual.isSome ∧ r.ineq_dual.isSome) ↔
        r.status ∈ SOLUTION_PRESENT) ∧
    (r.status ∉ SOLUTION_PRESENT →
        r.value = none ∧ r.primal = none ∧ r.eq_dual = none ∧ r.ineq_dual = none) := by
  unfold format_results at h
  cases hm : statusMapLookup rd.info.exitFlag with
  | none => rw [hm] at h; exact absurd h (by simp)
  | some status =>
      rw [hm] at h
      simp only [Except.ok.injEq] at h
      subst h
      by_cases hs : status ∈ SOLUTION_PRESENT <;> simp [hs]

/-- Witness for C2 at exit code `1` with nonempty raw vectors. -/
theorem format_results_solution_present_iff_checked :
    ((rInfeasible.value.isSome ∧ rInfeasible.primal.isSome ∧
        rInfeasible.eq_dual.isSome ∧ rInfeasible.ineq_dual.isSome) ↔
      rInfeasible.status ∈ SOLUTION_PRESENT) ∧
    (rInfeasible.status ∉ SOLUTION_PRESENT →
      rInfeasible.value = none ∧ rInfeasible.primal = none ∧
        rInfeasible.eq_dual = none ∧ rInfeasible.ineq_dual = none) :=
  format_results_solution_present_iff rdInfeasible dataHalf rInfeasible rfl

/-- C3: when the translated status is in `SOLUTION_PRESENT`, the normalized
value is exactly the raw primal cost plus the bundle's objective offset (one
addition, nothing else), and `x`, `y`, `z` are copied through verbatim. -/
theorem format_results_offset_and_verbatim (rd : ResultsDict) (data : ProbData)
    (r : NewResults) (h : format_results rd data = Except.ok r)
    (hs : r.status ∈ SOLUTION_PRESENT) :
    r.value = some (rd.info.pcost + data.offset) ∧
    r.primal = some rd.x ∧ r.eq_dual = some rd.y ∧ r.ineq_dual = some rd.z := by
  unfold format_results at h
  cases hm : statusMapLookup rd.info.exitFlag with
  | none => rw [hm] at h; exact absurd h (by simp)
  | some status =>
      rw [hm] at h
      simp only [Except.ok.injEq] at h
      subst h
      simp only [NewResults.mk.injEq] at hs ⊢
      simp [hs]

/-- Witness for C3: `pcost = 5`, `offset = 5/2`, value `5 + 5/2 = 15/2`. -/
theorem format_results_offset_and_verbatim_checked :
    rOptimal.value = some (rdOptimal.info.pcost + dataOffset.offset) ∧
    rOptimal.primal = some rdOptimal.x ∧ rOptimal.eq_dual = some rdOptimal.y ∧
    rOptimal.ineq_dual = some rdOptimal.z :=
  format_results_offset_and_verbatim rdOptimal dataOffset rOptimal rfl (by decide)

/-- C4: an exit code outside the eleven keys of `STATUS_MAP` makes
`format_results` fail with the unknown-exit-code error (the `KeyError` of
the table lookup), not return a defaulted status. -/
theorem format_results_unknown_code (rd : ResultsDict) (data : ProbData)
    (h : rd.info.exitFlag ∉ STATUS_MAP_keys) :
    format_results rd data = Except.error PyError.unknownExitCode := by
  have hl : statusMapLookup rd.info.exitFlag = none := by
    unfold statusMapLookup
    rw [Option.map_eq_none']
    rw [List.find?_eq_none]
    intro p hp
    simp only [decide_eq_true_eq]
    intro hpc
    exact h (hpc ▸ List.mem_map_of_mem Prod.fst hp)
  unfold format_results
  rw [hl]

/-- Witness for C4 at the unmapped exit code `3`. -/
theorem format_results_unknown_code_checked :
    format_results rdUnknown dataHalf = Except.error PyError.unknownExitCode :=
  format_results_unknown_code rdUnknown dataHalf (by decide)

/-- C5: `get_problem_data` fails unconditionally — its body reads the
unbound name `cached_data`, so every direct call raises `NameError`
whatever the rest of the body would compute; and `solve`, which passes four
positional arguments (including `self`) to the three-parameter method,
raises `TypeError` on that call, so it never reaches the `ecos.solve`
invocation: its outcome is the same error for every solver behavior
`ecosSolve`. -/
theorem get_problem_data_always_fails :
    (∀ (args : SolveArgs) (body_rest : SolveArgs → Except PyError ProbData),
        get_problem_data_body args body_rest = Except.error PyError.nameError) ∧
    (∀ (objective : List ℚ) (constraints : List ConstraintKind)
        (cached_data : List (String × ℚ)) (warm_start verbose : Bool)
        (solver_opts : List (String × ℚ))
        (body_rest : SolveArgs → Except PyError ProbData)
        (ecosSolve : ProbData → Bool → List (String × ℚ) → ResultsDict),
        solve objective constraints cached_data warm_start verbose solver_opts
            body_rest ecosSolve = Except.error PyError.typeError) :=
  ⟨fun _ _ => rfl, fun _ _ _ _ _ _ _ _ => rfl⟩

/-- C7 counterexample: on a problem whose constraint list contains an
unsupported kind, `get_problem_data` does not fail with
`UnsupportedConstraint`; it fails with `NameError`, the same as on every
other input, because no acceptance check runs (the `accepts` predicate is
commented out). -/
theorem get_problem_data_no_unsupported_error :
    get_problem_data_body ⟨[1], [ConstraintKind.other]⟩
        (fun _ => Except.ok ⟨0, []⟩) = Except.error PyError.nameError ∧
    (Except.error PyError.nameError : Except PyError ProbData) ≠
      Except.error PyError.unsupportedConstraint := by
  refine ⟨rfl, fun h => ?_⟩
  simp at h

/-- C7 amended: `get_problem_data` performs no constraint-kind check and
never fails with `UnsupportedConstraint`; regardless of which constraint
kinds the problem contains, every call fails with `NameError` instead. -/
theorem get_problem_data_never_unsupported (args : SolveArgs)
    (body_rest : SolveArgs → Except PyError ProbData) :
    get_problem_data_body args body_rest = Except.error PyError.nameError ∧
    get_problem_data_body args body_rest ≠
      Except.error PyError.unsupportedConstraint := by
  refine ⟨rfl, fun h => ?_⟩
  rw [show get_problem_data_body args body_rest = Except.error PyError.nameError
      from rfl] at h
  simp at h

/-- C8: whenever the exit code is in the mapping table, `format_results`
populates solve time, setup time and iteration count from the raw info
block, whatever canonical status the code maps to. -/
theorem format_results_diagnostics (rd : ResultsDict) (data : ProbData)
    (h : rd.info.exitFlag ∈ STATUS_MAP_keys) :
    ∃ r, format_results rd data = Except.ok r ∧
      r.solve_time = rd.info.timing.tsolve ∧
      r.setup_time = rd.info.timing.tsetup ∧
      r.num_iters = rd.info.iter := by
  have hsome : ∃ st, statusMapLookup rd.info.exitFlag = some st := by
    unfold statusMapLookup
    rcases List.mem_map.mp h with ⟨p, hp, hfst⟩
    have hfind : (STATUS_MAP.find? (fun q => q.1 = rd.info.exitFlag)).isSome := by
      rw [List.find?_isSome]
      exact ⟨p, hp, by simp [hfst]⟩
    rcases Option.isSome_iff_exists.mp hfind with ⟨q, hq⟩
    exact ⟨q.2, by rw [hq]; rfl⟩
  rcases hsome with ⟨st, hst⟩
  unfold format_results
  rw [hst]
  exact ⟨_, rfl, rfl, rfl, rfl⟩

/-- Witness for C8 at exit code `-2` (a `SOLVER_ERROR` code). -/
theorem format_results_diagnostics_checked :
    ∃ r, format_results rdNumerics dataHalf = Except.ok r ∧
      r.solve_time = rdNumerics.info.timing.tsolve ∧
      r.setup_time = rdNumerics.info.timing.tsetup ∧
      r.num_iters = rdNumerics.info.iter :=
  format_results_diagnostics rdNumerics dataHalf (by decide)

/-- Lookup on a dict cons cell. -/
theorem dictGet?_cons (p : String × DimVal) (l : Dict) (k : String) :
    dictGet? (p :: l) k = if p.1 = k then some p.2 else dictGet? l k := by
  unfold dictGet?
  rw [List.find?_cons]
  by_cases h : p.1 = k <;> simp [h]

/-- Assignment followed by lookup of the same key. -/
theorem dictGet?_dictSet_self (d : Dict) (k : String) (v : DimVal) :
    dictGet? (dictSet d k v) k = some v := by
  induction d with
  | nil => simp [dictSet, dictGet?_cons]
  | cons p ps ih =>
      by_cases h : p.1 = k
      · simp [dictSet, h, dictGet?_cons]
      · simp [dictSet, h, dictGet?_cons, ih]

/-- Assignment leaves every other key's binding unchanged. -/
theorem dictGet?_dictSet_of_ne (d : Dict) (k k' : String) (v : DimVal)
    (h : k' ≠ k) :
    dictGet? (dictSet d k v) k' = dictGet? d k' := by
  induction d with
  | nil =>
      simp [dictSet, dictGet?_cons, Ne.symm h]
  | cons p ps ih =>
      by_cases hp : p.1 = k
      · rw [show dictSet (p :: ps) k v = (k, v) :: ps from by simp [dictSet, hp]]
        rw [dictGet?_cons, dictGet?_cons]
        simp [Ne.symm h, hp]
      · rw [show dictSet (p :: ps) k v = p :: dictSet ps k v from by
            simp [dictSet, hp]]
        rw [dictGet?_cons, dictGet?_cons, ih]

/-- C6: the descriptor handling copies the caller-owned cone-dimension
descriptor and augments only the copy: the adapter's copy lives at a fresh
address, gains the alias key `"e"` bound to the exponential-cone count,
keeps the original `EXP_DIM` field and every other binding, and the
upstream descriptor object is left holding exactly the entries it held
before. -/
theorem dims_descriptor_preserved (st : Store) (dimsAddr : ℕ) (v : DimVal)
    (ha : dimsAddr < st.dicts.length)
    (hv : dictGet? (st.read dimsAddr) EXP_DIM = some v) :
    ∃ st2 copyAddr,
      dims_copy_then_alias st dimsAddr = Except.ok (st2, copyAddr) ∧
      copyAddr ≠ dimsAddr ∧
      st2.read dimsAddr = st.read dimsAddr ∧
      dictGet? (st2.read copyAddr) "e" = some v ∧
      dictGet? (st2.read copyAddr) EXP_DIM = some v ∧
      ∀ k, k ≠ "e" → dictGet? (st2.read copyAddr) k = dictGet? (st.read dimsAddr) k := by
  have hread_new : (st.allocCopy dimsAddr).1.read st.dicts.length = st.read dimsAddr := by
    simp [Store.allocCopy, Store.read, List.getElem?_concat_length]
  refine ⟨(st.allocCopy dimsAddr).1.setItem st.dicts.length "e" v, st.dicts.length,
    ?_, Ne.symm (ne_of_lt ha), ?_, ?_, ?_, ?_⟩
  · have hm : dictGet? ((st.allocCopy dimsAddr).1.read (st.allocCopy dimsAddr).2)
        EXP_DIM = some v := by
      rw [show (st.allocCopy dimsAddr).2 = st.dicts.length from rfl, hread_new]
      exact hv
    simp only [dims_copy_then_alias, hm]
    rfl
  · show ((((st.dicts ++ [st.read dimsAddr]).set st.dicts.length
        (dictSet ((st.allocCopy dimsAddr).1.read st.dicts.length) "e" v))[dimsAddr]?).getD [])
      = st.read dimsAddr
    rw [List.getElem?_set_ne (Ne.symm (ne_of_lt ha)),
      List.getElem?_append_left ha]
    rfl
  · show dictGet? ((((st.dicts ++ [st.read dimsAddr]).set st.dicts.length
        (dictSet ((st.allocCopy dimsAddr).1.read st.dicts.length) "e" v))[st.dicts.length]?).getD [])
        "e" = some v
    rw [List.getElem?_set_self (by simp)]
    simp [hread_new, dictGet?_dictSet_self]
  · show dictGet? ((((st.dicts ++ [st.read dimsAddr]).set st.dicts.length
        (dictSet ((st.allocCopy dimsAddr).1.read st.dicts.length) "e" v))[st.dicts.length]?).getD [])
        EXP_DIM = some v
    rw [List.getElem?_set_self (by simp)]
    simp only [Option.getD_some]
    rw [hread_new, dictGet?_dictSet_of_ne _ _ _ _ (by decide)]
    exact hv
  · intro k hk
    show dictGet? ((((st.dicts ++ [st.read dimsAddr]).set st.dicts.length
        (dictSet ((st.allocCopy dimsAddr).1.read st.dicts.length) "e" v))[st.dicts.length]?).getD [])
        k = dictGet? (st.read dimsAddr) k
    rw [List.getElem?_set_self (by simp)]
    simp only [Option.getD_some]
    rw [hread_new, dictGet?_dictSet_of_ne _ _ _ _ hk]

/-- Witness for C6 on the concrete descriptor `{'l': 2, 'q': [3], 'ep': 1}`. -/
theorem dims_descriptor_preserved_checked :
    ∃ st2 copyAddr,
      dims_copy_then_alias storeExp 0 = Except.ok (st2, copyAddr) ∧
      copyAddr ≠ 0 ∧
      st2.read 0 = storeExp.read 0 ∧
      dictGet? (st2.read copyAddr) "e" = some (DimVal.num 1) ∧
      dictGet? (st2.read copyAddr) EXP_DIM = some (DimVal.num 1) ∧
      ∀ k, k ≠ "e" →
        dictGet? (st2.read copyAddr) k = dictGet? (storeExp.read 0) k :=
  dims_descriptor_preserved storeExp 0 (DimVal.num 1) (by decide) (by decide)

/-- C9: the result of `solve` does not depend on `warm_start` — with the
objective, constraints, cached data, verbosity flag, solver options, body
continuation, and solver behavior all fixed, warm start on and off give
identical results (the parameter is never read). -/
theorem solve_warm_start_independent (objective : List ℚ)
    (constraints : List ConstraintKind) (cached_data : List (String × ℚ))
    (verbose : Bool) (solver_opts : List (String × ℚ))
    (body_rest : SolveArgs → Except PyError ProbData)
    (ecosSolve : ProbData → Bool → List (String × ℚ) → ResultsDict) :
    solve objective constraints cached_data true verbose solver_opts
        body_rest ecosSolve =
      solve objective constraints cached_data false verbose solver_opts
        body_rest ecosSolve := rfl

/-- A tiled layout only ends at or after its start. -/
theorem layoutFrom_le :
    ∀ (vs : List VarEntry) (start n : ℕ), layoutFrom start vs n = true →
      start ≤ n := by
  intro vs
  induction vs with
  | nil => intro start n h; simp [layoutFrom] at h; omega
  | cons v vs ih =>
      intro start n h
      simp only [layoutFrom, Bool.and_eq_true, beq_iff_eq] at h
      have := ih (start + v.size) n h.2
      omega

/-- Every collected index of a layout tiling `[start, n)` lies in
`[start, n)`. -/
theorem mem_collectIdx_bounds (p : VarEntry → Bool) :
    ∀ (vs : List VarEntry) (start n : ℕ), layoutFrom start vs n = true →
      ∀ i ∈ collectIdx vs p, start ≤ i ∧ i < n := by
  intro vs
  induction vs with
  | nil => intro start n _ i hi; simp [collectIdx] at hi
  | cons v vs ih =>
      intro start n h i hi
      simp only [layoutFrom, Bool.and_eq_true, beq_iff_eq] at h
      obtain ⟨ho, hrest⟩ := h
      have hsn : start + v.size ≤ n := layoutFrom_le vs (start + v.size) n hrest
      simp only [collectIdx, List.mem_append] at hi
      rcases hi with hi | hi
      · by_cases hp : p v
        · simp only [hp, if_true, expandVar, List.mem_map, List.mem_range] at hi
          obtain ⟨j, hj, rfl⟩ := hi
          omega
        · simp [hp] at hi
      · have hb := ih (start + v.size) n hrest i hi
        exact ⟨by omega, hb.2⟩

/-- The collected index list of a tiled layout is strictly increasing. -/
theorem collectIdx_pairwise (p : VarEntry → Bool) :
    ∀ (vs : List VarEntry) (start n : ℕ), layoutFrom start vs n = true →
      List.Pairwise (· < ·) (collectIdx vs p) := by
  intro vs
  induction vs with
  | nil => intro start n _; simp [collectIdx]
  | cons v vs ih =>
      intro start n h
      simp only [layoutFrom, Bool.and_eq_true, beq_iff_eq] at h
      obtain ⟨ho, hrest⟩ := h
      simp only [collectIdx]
      rw [List.pairwise_append]
      refine ⟨?_, ih (start + v.size) n hrest, ?_⟩
      · by_cases hp : p v
        · simp only [hp, if_true, expandVar]
          rw [List.pairwise_map]
          exact (List.pairwise_lt_range v.size).imp
            (fun hab => Nat.add_lt_add_left hab v.offset)
        · simp [hp]
      · intro a ha b hb
        have hbge := (mem_collectIdx_bounds p vs (start + v.size) n hrest b hb).1
        by_cases hp : p v
        · simp only [hp, if_true, expandVar, List.mem_map, List.mem_range] at ha
          obtain ⟨j, hj, rfl⟩ := ha
          omega
        · simp [hp] at ha

/-- Indices collected for two mutually exclusive flags never meet. -/
theorem collectIdx_disjoint (p q : VarEntry → Bool)
    (hpq : ∀ v, ¬(p v = true ∧ q v = true)) :
    ∀ (vs : List VarEntry) (start n : ℕ), layoutFrom start vs n = true →
      ∀ i ∈ collectIdx vs p, i ∉ collectIdx vs q := by
  intro vs
  induction vs with
  | nil => intro start n _ i hi; simp [collectIdx] at hi
  | cons v vs ih =>
      intro start n h i hi hiq
      simp only [layoutFrom, Bool.and_eq_true, beq_iff_eq] at h
      obtain ⟨ho, hrest⟩ := h
      simp only [collectIdx, List.mem_append] at hi hiq
      rcases hi with hi | hi
      · by_cases hp : p v
        · have hq : q v = false := by
            rcases Bool.eq_false_or_eq_true (q v) with hq | hq
            · exact absurd ⟨hp, hq⟩ (hpq v)
            · exact hq
          simp only [hp, if_true, expandVar, List.mem_map, List.mem_range] at hi
          obtain ⟨j, hj, rfl⟩ := hi
          rcases hiq with hiq | hiq
          · rw [hq] at hiq; simp at hiq
          · have := (mem_collectIdx_bounds q vs (start + v.size) n hrest _ hiq).1
            omega
        · simp [hp] at hi
      · rcases hiq with hiq | hiq
        · by_cases hq : q v
          · simp only [hq, if_true, expandVar, List.mem_map, List.mem_range] at hiq
            obtain ⟨j, hj, hij⟩ := hiq
            have := (mem_collectIdx_bounds p vs (start + v.size) n hrest i hi).1
            omega
          · simp [hq] at hiq
        · exact ih (start + v.size) n hrest i hi hiq

/-- The number of collected indices is the total size of the selected
variables. -/
theorem length_collectIdx (p : VarEntry → Bool) :
    ∀ vs : List VarEntry, (collectIdx vs p).length = sumSizes vs p := by
  intro vs
  induction vs with
  | nil => rfl
  | cons v vs ih =>
      simp only [collectIdx, sumSizes, List.length_append, ih]
      by_cases hp : p v <;> simp [hp, expandVar]

/-- Boolean sizes and integer sizes add up to the discrete sizes. -/
theorem sumSizes_bool_add_int :
    ∀ vs : List VarEntry,
      sumSizes vs VarEntry.isBool + sumSizes vs VarEntry.isInt =
        sumSizes vs VarEntry.isDiscrete := by
  intro vs
  induction vs with
  | nil => rfl
  | cons v vs ih =>
      simp only [sumSizes]
      cases hv : v.flag <;>
        simp [VarEntry.isBool, VarEntry.isInt, VarEntry.isDiscrete, hv] <;>
        omega

/-- C10: under the upstream layout invariant, the boolean and integer
flat-index sets are disjoint, each is strictly sorted and a subset of
`[0, n)` where `n = len(x)`, and the size of their union equals the sum of
the declared discrete variables' sizes. -/
theorem noncvx_idx_sets_partition (vs : List VarEntry) (n : ℕ)
    (h : layoutFrom 0 vs n = true) :
    (∀ i ∈ bool_idx vs, i ∉ int_idx vs) ∧
    List.Pairwise (· < ·) (bool_idx vs) ∧
    List.Pairwise (· < ·) (int_idx vs) ∧
    (∀ i ∈ bool_idx vs, i < n) ∧
    (∀ i ∈ int_idx vs, i < n) ∧
    ((bool_idx vs).toFinset ∪ (int_idx vs).toFinset).card =
      sumSizes vs VarEntry.isDiscrete := by
  have hexcl : ∀ v : VarEntry, ¬(v.isBool = true ∧ v.isInt = true) := by
    intro v
    cases hv : v.flag <;> simp [VarEntry.isBool, VarEntry.isInt, hv]
  have hdisj : ∀ i ∈ bool_idx vs, i ∉ int_idx vs :=
    collectIdx_disjoint VarEntry.isBool VarEntry.isInt hexcl vs 0 n h
  have hpb : List.Pairwise (· < ·) (bool_idx vs) :=
    collectIdx_pairwise VarEntry.isBool vs 0 n h
  have hpi : List.Pairwise (· < ·) (int_idx vs) :=
    collectIdx_pairwise VarEntry.isInt vs 0 n h
  refine ⟨hdisj, hpb, hpi,
    fun i hi => (mem_collectIdx_bounds VarEntry.isBool vs 0 n h i hi).2,
    fun i hi => (mem_collectIdx_bounds VarEntry.isInt vs 0 n h i hi).2, ?_⟩
  have hnb : (bool_idx vs).Nodup := hpb.imp (fun hab => Nat.ne_of_lt hab)
  have hni : (int_idx vs).Nodup := hpi.imp (fun hab => Nat.ne_of_lt hab)
  have hdf : Disjoint (bool_idx vs).toFinset (int_idx vs).toFinset :=
    List.disjoint_toFinset_iff_disjoint.mpr (fun a ha hb => hdisj a ha hb)
  rw [Finset.card_union_of_disjoint hdf, List.toFinset_card_of_nodup hnb,
    List.toFinset_card_of_nodup hni]
  show (collectIdx vs VarEntry.isBool).length +
      (collectIdx vs VarEntry.isInt).length = sumSizes vs VarEntry.isDiscrete
  rw [length_collectIdx, length_collectIdx, sumSizes_bool_add_int]

/-- Witness for C10 on the concrete variable map tiling `[0, 5)`. -/
theorem noncvx_idx_sets_partition_checked :
    (∀ i ∈ bool_idx varsExample, i ∉ int_idx varsExample) ∧
    List.Pairwise (· < ·) (bool_idx varsExample) ∧
    List.Pairwise (· < ·) (int_idx varsExample) ∧
    (∀ i ∈ bool_idx varsExample, i < 5) ∧
    (∀ i ∈ int_idx varsExample, i < 5) ∧
    ((bool_idx varsExample).toFinset ∪ (int_idx varsExample).toFinset).card =
      sumSizes varsExample VarEntry.isDiscrete :=
  noncvx_idx_sets_partition varsExample 5 (by decide)

end EcosConif
